import Mathlib

/-!
Verification development for the ComplianceOS compliance-investigation agent.

The definitions below are a shallow embedding of the TypeScript source:
`ComplianceOSService` (field locator, risk normalization, transaction and
investigation parsers, customer-record assembly), `BrowserAgent.execute`,
and `Orchestrator.investigate` / `generateNotFoundReport`.

Strings are modelled as `List Char` internally (JavaScript strings are
sequences of code units; all the parsing here is per-character).  JavaScript
`toLowerCase`/`toUpperCase` act on the ASCII range exactly as the tables
below; for regexes without the `u` flag, case-insensitive matching never
identifies a non-ASCII character with an ASCII one, so the ASCII tables are
a faithful model of the case-insensitive literal matches used by the code.
`parseFloat` on the stripped amount strings (digits, an optional leading
empty integer part, a `.` and two decimal digits) is modelled exactly by the
integer number of cents, and the comparison `> 10000` by `> 1000000` cents.
-/

namespace ComplianceOS

/-- ASCII lower-casing, modelling JavaScript `toLowerCase` on the characters
relevant to this code base. -/
def lcChar (c : Char) : Char :=
  if c = 'A' then 'a' else if c = 'B' then 'b' else if c = 'C' then 'c'
  else if c = 'D' then 'd' else if c = 'E' then 'e' else if c = 'F' then 'f'
  else if c = 'G' then 'g' else if c = 'H' then 'h' else if c = 'I' then 'i'
  else if c = 'J' then 'j' else if c = 'K' then 'k' else if c = 'L' then 'l'
  else if c = 'M' then 'm' else if c = 'N' then 'n' else if c = 'O' then 'o'
  else if c = 'P' then 'p' else if c = 'Q' then 'q' else if c = 'R' then 'r'
  else if c = 'S' then 's' else if c = 'T' then 't' else if c = 'U' then 'u'
  else if c = 'V' then 'v' else if c = 'W' then 'w' else if c = 'X' then 'x'
  else if c = 'Y' then 'y' else if c = 'Z' then 'z' else c

/-- ASCII upper-casing, modelling JavaScript `toUpperCase` on the characters
relevant to this code base. -/
def ucChar (c : Char) : Char :=
  if c = 'a' then 'A' else if c = 'b' then 'B' else if c = 'c' then 'C'
  else if c = 'd' then 'D' else if c = 'e' then 'E' else if c = 'f' then 'F'
  else if c = 'g' then 'G' else if c = 'h' then 'H' else if c = 'i' then 'I'
  else if c = 'j' then 'J' else if c = 'k' then 'K' else if c = 'l' then 'L'
  else if c = 'm' then 'M' else if c = 'n' then 'N' else if c = 'o' then 'O'
  else if c = 'p' then 'P' else if c = 'q' then 'Q' else if c = 'r' then 'R'
  else if c = 's' then 'S' else if c = 't' then 'T' else if c = 'u' then 'U'
  else if c = 'v' then 'V' else if c = 'w' then 'W' else if c = 'x' then 'X'
  else if c = 'y' then 'Y' else if c = 'z' then 'Z' else c

/-- Whitespace as stripped by JavaScript `trim` (the usual ASCII whitespace
plus NBSP and BOM, the only non-ASCII whitespace that can plausibly occur). -/
def isWS (c : Char) : Bool :=
  c = ' ' || c = '\t' || c = '\n' || c = '\r' ||
  c.toNat = 11 || c.toNat = 12 || c.toNat = 160 || c.toNat = 65279

/-- JavaScript `String.prototype.trim`. -/
def trimL (l : List Char) : List Char :=
  ((l.dropWhile isWS).reverse.dropWhile isWS).reverse

/-- JavaScript `toLowerCase` over a whole string. -/
def lowerL (l : List Char) : List Char := l.map lcChar

/-- Boolean list-prefix test. -/
def isPreL : List Char → List Char → Bool
  | [], _ => true
  | _ :: _, [] => false
  | a :: as_, b :: bs => a = b && isPreL as_ bs

/-- JavaScript `String.prototype.includes`. -/
def containsL (pat : List Char) : List Char → Bool
  | [] => isPreL pat []
  | c :: t => isPreL pat (c :: t) || containsL pat t

theorem isPreL_refl (l : List Char) : isPreL l l = true := by
  induction l with
  | nil => rfl
  | cons a t ih => simp [isPreL, ih]

theorem containsL_suffix (pat : List Char) : ∀ pre : List Char,
    containsL pat (pre ++ pat) = true := by
  intro pre
  induction pre with
  | nil =>
    cases pat with
    | nil => rfl
    | cons c t => simp [containsL, isPreL_refl]
  | cons c t ih => simp [containsL, ih]

/-- Decimal digit to character (JavaScript number-to-string builds decimal
digits this way). -/
def digitChar (d : Nat) : Char :=
  if d = 0 then '0' else if d = 1 then '1' else if d = 2 then '2'
  else if d = 3 then '3' else if d = 4 then '4' else if d = 5 then '5'
  else if d = 6 then '6' else if d = 7 then '7' else if d = 8 then '8'
  else if d = 9 then '9' else '*'

def digitVal (c : Char) : Nat := c.toNat - 48

/-- Value of a decimal digit string. -/
def digitsVal (l : List Char) : Nat := l.foldl (fun n c => n * 10 + digitVal c) 0

/-- Fuelled decimal representation (the fuel only makes the recursion
structural; any fuel above the input gives the same digits). -/
def natDigsF : Nat → Nat → List Char
  | 0, _ => []
  | fuel + 1, n =>
    if n < 10 then [digitChar n]
    else natDigsF fuel (n / 10) ++ [digitChar (n % 10)]

theorem natDigsF_congr : ∀ (f1 f2 n : Nat), n < f1 → n < f2 →
    natDigsF f1 n = natDigsF f2 n := by
  intro f1
  induction f1 using Nat.strong_induction_on with
  | _ f1 ih =>
    intro f2 n h1 h2
    cases f1 with
    | zero => omega
    | succ g1 =>
      cases f2 with
      | zero => omega
      | succ g2 =>
        show (if n < 10 then _ else _) = (if n < 10 then _ else _)
        split
        · rfl
        · rw [ih g1 (by omega) g2 (n / 10)
            (by have h10 : n / 10 < n := Nat.div_lt_self (by omega) (by omega); omega)
            (by have h10 : n / 10 < n := Nat.div_lt_self (by omega) (by omega); omega)]

/-- Decimal representation of a natural number, as produced by JavaScript
template-string interpolation of a non-negative integer. -/
def natDigs (n : Nat) : List Char := natDigsF (n + 1) n

theorem natDigs_eq (n : Nat) :
    natDigs n = if n < 10 then [digitChar n]
      else natDigs (n / 10) ++ [digitChar (n % 10)] := by
  unfold natDigs
  show (if n < 10 then _ else _) = _
  split
  · rfl
  · rw [natDigsF_congr n (n / 10 + 1) (n / 10)
      (by have h10 : n / 10 < n := Nat.div_lt_self (by omega) (by omega); omega)
      (by omega)]

theorem digitsVal_append (l : List Char) (c : Char) :
    digitsVal (l ++ [c]) = digitsVal l * 10 + digitVal c := by
  simp [digitsVal, List.foldl_append]

theorem digitVal_digitChar {d : Nat} (h : d < 10) :
    digitVal (digitChar d) = d := by
  interval_cases d <;> decide

theorem digitsVal_natDigs (n : Nat) : digitsVal (natDigs n) = n := by
  induction n using Nat.strong_induction_on with
  | _ n ih =>
    rw [natDigs_eq]
    split
    · simp [digitsVal, digitVal_digitChar (by omega : n < 10)]
    · rw [digitsVal_append,
        ih (n / 10) (Nat.div_lt_self (by omega) (by omega)),
        digitVal_digitChar (Nat.mod_lt _ (by omega))]
      omega

theorem natDigs_inj {a b : Nat} (h : natDigs a = natDigs b) : a = b := by
  have ha := digitsVal_natDigs a
  have hb := digitsVal_natDigs b
  rw [h] at ha
  omega

/-!
## Transaction parsing

`ComplianceOSService.extractTransactions` scans the flattened text of the
"Recent Transactions" card with the JavaScript regex

  `(\d{4}-\d{2}-\d{2})([^$\d]+?)(\$[\d,]+\.\d{2})(?=\d{4}|$)` (global)

and turns each match into one `Transaction`.  The functions below implement
exactly that matching: `parseDate` is the date group, `middleAmt` is the lazy
middle group chained with `parseAmount` (the amount group plus the
lookahead), and `txnScan` is the global `exec` loop, which looks for the
leftmost match, emits it, and resumes right after it.
-/

/-- Shape of the date group `\d{4}-\d{2}-\d{2}` (exactly ten characters). -/
def dateShape : List Char → Bool
  | [a, b, c, e, h1, f, g, h2, i, j] =>
    a.isDigit && b.isDigit && c.isDigit && e.isDigit && (h1 = '-') &&
    f.isDigit && g.isDigit && (h2 = '-') && i.isDigit && j.isDigit
  | _ => false

/-- Consume the date group at the front of the input. -/
def parseDate (s : List Char) : Option (List Char × List Char) :=
  if dateShape (s.take 10) then some (s.take 10, s.drop 10) else none

/-- Character class `[\d,]` of the amount group. -/
def amtChar (c : Char) : Bool := c.isDigit || c = ','

/-- Character class `[^$\d]` of the middle group. -/
def midChar (c : Char) : Bool := !(c = '$' || c.isDigit)

/-- Four decimal digits at the front of the input. -/
def lookDigits4 : List Char → Bool
  | a :: b :: c :: d :: _ => a.isDigit && b.isDigit && c.isDigit && d.isDigit
  | _ => false

/-- The lookahead `(?=\d{4}|$)`. -/
def lookaheadOk (s : List Char) : Bool := s.isEmpty || lookDigits4 s

/-- Continuation of the amount group after the greedy `[\d,]+` run: expects
`\.` and `\d{2}` followed by the lookahead `(?=\d{4}|$)`. -/
def parseAmtTail (run : List Char) : List Char → Option (List Char × List Char)
  | p :: d1 :: d2 :: rest3 =>
    if run ≠ [] && p = '.' && d1.isDigit && d2.isDigit && lookaheadOk rest3 then
      some ('$' :: run ++ p :: d1 :: d2 :: [], rest3)
    else none
  | _ => none

/-- Consume the amount group `\$[\d,]+\.\d{2}` (with the trailing lookahead)
at the front of the input.  The greedy `[\d,]+` run is deterministic because
`.` is outside the class. -/
def parseAmount : List Char → Option (List Char × List Char)
  | [] => none
  | c :: rest =>
    if c = '$' then parseAmtTail (rest.takeWhile amtChar) (rest.dropWhile amtChar)
    else none

/-- The lazy middle group `[^$\d]+?` chained with the amount group: consume
one class character, then repeatedly try the amount and on failure consume
one more class character (shortest-first, exactly the lazy semantics). -/
def middleAmt (acc : List Char) : List Char → Option (List Char × List Char × List Char)
  | [] => none
  | c :: rest =>
    if midChar c then
      match parseAmount rest with
      | some (amt, rest2) => some (acc ++ [c], amt, rest2)
      | none => middleAmt (acc ++ [c]) rest
    else none

/-- The three capture groups of one transaction match. -/
structure TxnCap where
  date : List Char
  mid : List Char
  amt : List Char
deriving Repr, DecidableEq

/-- Try the whole transaction regex anchored at the front of the input;
return the captures and the suffix after the match. -/
def matchTxnAt (s : List Char) : Option (TxnCap × List Char) :=
  match parseDate s with
  | none => none
  | some (d, rest) =>
    match middleAmt [] rest with
    | none => none
    | some (m, a, rest2) => some (⟨d, m, a⟩, rest2)

theorem dateShape_elim {d : List Char} (h : dateShape d = true) :
    ∃ a b c e f g i j,
      d = [a, b, c, e, '-', f, g, '-', i, j] ∧
      a.isDigit = true ∧ b.isDigit = true ∧ c.isDigit = true ∧
      e.isDigit = true ∧ f.isDigit = true ∧ g.isDigit = true ∧
      i.isDigit = true ∧ j.isDigit = true := by
  rcases d with _ | ⟨a, _ | ⟨b, _ | ⟨c, _ | ⟨e, _ | ⟨h1, _ | ⟨f, _ | ⟨g, _ |
    ⟨h2, _ | ⟨i, _ | ⟨j, _ | ⟨k, t⟩⟩⟩⟩⟩⟩⟩⟩⟩⟩⟩ <;>
    simp only [dateShape, Bool.and_eq_true, decide_eq_true_eq] at h
  all_goals try exact absurd h (by decide)
  obtain ⟨⟨⟨⟨⟨⟨⟨⟨⟨ha, hb⟩, hc⟩, he⟩, h1e⟩, hf⟩, hg⟩, h2e⟩, hi⟩, hj⟩ := h
  subst h1e
  subst h2e
  exact ⟨a, b, c, e, f, g, i, j, rfl, ha, hb, hc, he, hf, hg, hi, hj⟩

theorem dateShape_length {d : List Char} (h : dateShape d = true) :
    d.length = 10 := by
  obtain ⟨a, b, c, e, f, g, i, j, hd, -⟩ := dateShape_elim h
  simp [hd]

theorem parseDate_length {s d r : List Char}
    (h : parseDate s = some (d, r)) : r.length + 10 = s.length := by
  unfold parseDate at h
  split at h
  · rename_i hds
    have h10 : (s.take 10).length = 10 := dateShape_length hds
    rw [List.length_take] at h10
    cases h
    simp [List.length_drop]
    omega
  · cases h

theorem parseDate_exact {d : List Char} (hd : dateShape d = true)
    (r : List Char) : parseDate (d ++ r) = some (d, r) := by
  have h10 : d.length = 10 := dateShape_length hd
  unfold parseDate
  rw [← h10, List.take_left, List.drop_left, if_pos hd]

theorem takeWhile_append_exact {p : Char → Bool} :
    ∀ l r : List Char, (∀ c ∈ l, p c = true) →
      (∀ c t, r = c :: t → p c = false) →
      (l ++ r).takeWhile p = l ∧ (l ++ r).dropWhile p = r := by
  intro l r hl hr
  induction l with
  | nil =>
    cases r with
    | nil => simp
    | cons c t => simp [List.takeWhile_cons, List.dropWhile_cons, hr c t rfl]
  | cons a l' ih =>
    have ha : p a = true := hl a (by simp)
    have := ih (fun c hc => hl c (by simp [hc]))
    simp [List.takeWhile_cons, List.dropWhile_cons, ha, this.1, this.2]

theorem parseAmtTail_cons3 (run : List Char) (p d1 d2 : Char) (rest3 : List Char) :
    parseAmtTail run (p :: d1 :: d2 :: rest3) =
      (if run ≠ [] && p = '.' && d1.isDigit && d2.isDigit && lookaheadOk rest3 then
        some ('$' :: run ++ p :: d1 :: d2 :: [], rest3)
      else none) := rfl

theorem parseAmount_cons (c : Char) (rest : List Char) :
    parseAmount (c :: rest) =
      (if c = '$' then parseAmtTail (rest.takeWhile amtChar) (rest.dropWhile amtChar)
      else none) := rfl

theorem parseAmount_exact {ds : List Char} {d1 d2 : Char} {r : List Char}
    (hne : ds ≠ []) (hall : ∀ c ∈ ds, amtChar c = true)
    (h1 : d1.isDigit = true) (h2 : d2.isDigit = true)
    (hla : lookaheadOk r = true) :
    parseAmount ('$' :: ds ++ '.' :: d1 :: d2 :: r)
      = some ('$' :: ds ++ '.' :: d1 :: d2 :: [], r) := by
  have hsp := takeWhile_append_exact ds ('.' :: d1 :: d2 :: r) hall
    (by intro c t hct; cases hct; rfl)
  rw [List.cons_append, parseAmount_cons, if_pos rfl, hsp.2, hsp.1, parseAmtTail_cons3]
  simp [hne, h1, h2, hla]

theorem parseAmount_not_dollar {c : Char} {rest : List Char}
    (h : ¬ c = '$') : parseAmount (c :: rest) = none := by
  rw [parseAmount_cons, if_neg h]

theorem parseAmtTail_length :
    ∀ {run t a r : List Char}, parseAmtTail run t = some (a, r) → r.length + 3 ≤ t.length := by
  intro run t a r h
  rcases t with _ | ⟨p, _ | ⟨d1, _ | ⟨d2, rest3⟩⟩⟩
  · cases h
  · cases h
  · cases h
  · rw [parseAmtTail_cons3] at h
    split at h
    · injection h with h'
      cases h'
      simp
    · cases h

theorem parseAmount_length :
    ∀ {s a r : List Char}, parseAmount s = some (a, r) → r.length < s.length := by
  intro s a r h
  cases s with
  | nil => cases h
  | cons c rest =>
    rw [parseAmount_cons] at h
    by_cases hc : c = '$'
    · rw [if_pos hc] at h
      have h3 := parseAmtTail_length h
      have hlen : (rest.dropWhile amtChar).length ≤ rest.length :=
        (List.dropWhile_sublist amtChar).length_le
      simp
      omega
    · rw [if_neg hc] at h
      cases h

theorem middleAmt_cons (acc : List Char) (c : Char) (rest : List Char) :
    middleAmt acc (c :: rest) =
      (if midChar c then
        match parseAmount rest with
        | some (amt, rest2) => some (acc ++ [c], amt, rest2)
        | none => middleAmt (acc ++ [c]) rest
      else none) := rfl

theorem middleAmt_length :
    ∀ {s : List Char} {acc m a r : List Char},
      middleAmt acc s = some (m, a, r) → r.length < s.length := by
  intro s
  induction s with
  | nil => intro acc m a r h; cases h
  | cons c rest ih =>
    intro acc m a r h
    rw [middleAmt_cons] at h
    by_cases hc : midChar c
    · rw [if_pos hc] at h
      rcases hpa : parseAmount rest with _ | ⟨amt2, rest2⟩ <;> rw [hpa] at h
      · have := ih h
        simp
        omega
      · simp at h
        obtain ⟨-, -, hr⟩ := h
        have := parseAmount_length hpa
        subst hr
        simp
        omega
    · rw [if_neg hc] at h
      cases h

theorem middleAmt_exact :
    ∀ (mid acc : List Char) {tail amt r : List Char},
      mid ≠ [] → (∀ c ∈ mid, midChar c = true) →
      parseAmount tail = some (amt, r) →
      middleAmt acc (mid ++ tail) = some (acc ++ mid, amt, r) := by
  intro mid
  induction mid with
  | nil => intro acc tail amt r hne; exact absurd rfl hne
  | cons c mid' ih =>
    intro acc tail amt r _ hall htail
    have hc : midChar c = true := hall c (by simp)
    cases mid' with
    | nil =>
      rw [List.singleton_append, middleAmt_cons, if_pos hc, htail]
    | cons c' mid'' =>
      have hc' : midChar c' = true := hall c' (by simp)
      have hnd : ¬ c' = '$' := by
        intro hcd
        simp [midChar, hcd] at hc'
      have hfail : parseAmount (c' :: mid'' ++ tail) = none := by
        rw [List.cons_append]
        exact parseAmount_not_dollar hnd
      have step := ih (acc ++ [c]) (List.cons_ne_nil c' mid'')
        (fun x hx => hall x (List.mem_cons_of_mem c hx)) htail
      rw [List.cons_append, middleAmt_cons, if_pos hc]
      simp only [hfail]
      rw [step]
      simp

theorem matchTxnAt_length {s : List Char} {cap : TxnCap} {r : List Char}
    (h : matchTxnAt s = some (cap, r)) : r.length < s.length := by
  unfold matchTxnAt at h
  split at h
  · cases h
  · rename_i d rest hdate
    split at h
    · cases h
    · rename_i m a rest2 hmid
      cases h
      have h1 := parseDate_length hdate
      have h2 := middleAmt_length hmid
      omega

/-- Fuelled version of the global `exec` loop of the transaction regex:
find the leftmost match, emit its captures, continue right after the match.
The fuel only serves to make the recursion structural; `txnScanF_congr`
shows the result does not depend on it. -/
def txnScanF : Nat → List Char → List TxnCap
  | 0, _ => []
  | fuel + 1, s =>
    match matchTxnAt s with
    | some (cap, rest) => cap :: txnScanF fuel rest
    | none =>
      match s with
      | [] => []
      | _ :: t => txnScanF fuel t

theorem txnScanF_succ (fuel : Nat) (s : List Char) :
    txnScanF (fuel + 1) s =
      (match matchTxnAt s with
      | some (cap, rest) => cap :: txnScanF fuel rest
      | none =>
        match s with
        | [] => []
        | _ :: t => txnScanF fuel t) := rfl

theorem txnScanF_congr : ∀ (f1 f2 : Nat) (s : List Char),
    s.length < f1 → s.length < f2 → txnScanF f1 s = txnScanF f2 s := by
  intro f1
  induction f1 using Nat.strong_induction_on with
  | _ f1 ih =>
    intro f2 s h1 h2
    cases f1 with
    | zero => omega
    | succ g1 =>
      cases f2 with
      | zero => omega
      | succ g2 =>
        rw [txnScanF_succ, txnScanF_succ]
        cases hm : matchTxnAt s with
        | some pr =>
          obtain ⟨cap, rest⟩ := pr
          have hlt := matchTxnAt_length hm
          show cap :: txnScanF g1 rest = cap :: txnScanF g2 rest
          rw [ih g1 (by omega) g2 rest (by omega) (by omega)]
        | none =>
          cases s with
          | nil => rfl
          | cons c t =>
            simp only [List.length_cons] at h1 h2
            show txnScanF g1 t = txnScanF g2 t
            exact ih g1 (by omega) g2 t (by omega) (by omega)

/-- The global `exec` loop of the transaction regex. -/
def txnScan (s : List Char) : List TxnCap := txnScanF (s.length + 1) s

theorem txnScan_nil : txnScan [] = [] := rfl

theorem txnScan_some {s : List Char} {cap : TxnCap} {rest : List Char}
    (h : matchTxnAt s = some (cap, rest)) :
    txnScan s = cap :: txnScan rest := by
  unfold txnScan
  rw [txnScanF_succ, h]
  show cap :: txnScanF s.length rest = cap :: txnScanF (rest.length + 1) rest
  rw [txnScanF_congr s.length (rest.length + 1) rest (matchTxnAt_length h) (by omega)]

theorem txnScan_skip {c : Char} {t : List Char}
    (h : matchTxnAt (c :: t) = none) : txnScan (c :: t) = txnScan t := by
  unfold txnScan
  rw [txnScanF_succ, h]
  show txnScanF (c :: t).length t = txnScanF (t.length + 1) t
  simp only [List.length_cons]

/-!
## Well-formed transaction blobs

A well-formed blob is the concatenation of segments, each consisting of a
calendar date, a non-empty run of non-currency non-digit characters, and a
currency amount — exactly the spec's `(date)(text)(amount)` pattern and the
shape the extraction regex was written for.
-/

/-- One well-formed `(date)(text)(amount)` segment, the amount split into
its integer-part run `ds` and its two cent digits. -/
structure RawSeg where
  dt : List Char
  mid : List Char
  ds : List Char
  c1 : Char
  c2 : Char
deriving Repr, DecidableEq

/-- The amount text `$<ds>.<c1><c2>` of a segment. -/
def RawSeg.amtText (g : RawSeg) : List Char :=
  '$' :: g.ds ++ '.' :: g.c1 :: g.c2 :: []

/-- The full text of a segment. -/
def RawSeg.text (g : RawSeg) : List Char := g.dt ++ g.mid ++ g.amtText

/-- Well-formedness of a segment (decidable, so witnesses can be checked by
evaluation). -/
def RawSeg.ok (g : RawSeg) : Bool :=
  dateShape g.dt && !g.mid.isEmpty && g.mid.all midChar &&
  !g.ds.isEmpty && g.ds.all amtChar && g.c1.isDigit && g.c2.isDigit

/-- Concatenation of the segments into one container blob. -/
def blob (gs : List RawSeg) : List Char := (gs.map RawSeg.text).flatten

/-- The captures the transaction regex produces on one segment. -/
def RawSeg.cap (g : RawSeg) : TxnCap := ⟨g.dt, g.mid, g.amtText⟩

theorem lookaheadOk_blob {gs : List RawSeg} (h : ∀ g ∈ gs, g.ok = true) :
    lookaheadOk (blob gs) = true := by
  cases gs with
  | nil => rfl
  | cons g gs' =>
    have hg : g.ok = true := h g (by simp)
    simp only [RawSeg.ok, Bool.and_eq_true] at hg
    obtain ⟨a, b, c, e, f, g2, i, j, hdt, ha, hb, hc, he, -⟩ :=
      dateShape_elim hg.1.1.1.1.1.1
    simp only [blob, List.map_cons, List.flatten_cons, RawSeg.text, hdt]
    simp [lookaheadOk, lookDigits4, ha, hb, hc, he]

theorem matchTxnAt_seg {g : RawSeg} (hg : g.ok = true) (B : List Char)
    (hla : lookaheadOk B = true) :
    matchTxnAt (g.text ++ B) = some (g.cap, B) := by
  simp only [RawSeg.ok, Bool.and_eq_true] at hg
  obtain ⟨⟨⟨⟨⟨⟨hdt, hmidne⟩, hmid⟩, hdsne⟩, hds⟩, h1⟩, h2⟩ := hg
  have hmidne' : g.mid ≠ [] := by
    cases hm : g.mid
    · rw [hm] at hmidne; simp at hmidne
    · exact List.cons_ne_nil _ _
  have hdsne' : g.ds ≠ [] := by
    cases hd : g.ds
    · rw [hd] at hdsne; simp at hdsne
    · exact List.cons_ne_nil _ _
  have hmid' : ∀ c ∈ g.mid, midChar c = true := by
    intro c hc; exact (List.all_eq_true.mp hmid) c hc
  have hds' : ∀ c ∈ g.ds, amtChar c = true := by
    intro c hc; exact (List.all_eq_true.mp hds) c hc
  have hamt : parseAmount (g.amtText ++ B) = some (g.amtText, B) := by
    have : parseAmount ('$' :: g.ds ++ '.' :: g.c1 :: g.c2 :: B)
        = some ('$' :: g.ds ++ '.' :: g.c1 :: g.c2 :: [], B) :=
      parseAmount_exact hdsne' hds' h1 h2 hla
    simpa [RawSeg.amtText, List.append_assoc] using this
  have hmida : middleAmt [] (g.mid ++ (g.amtText ++ B))
      = some (g.mid, g.amtText, B) := by
    simpa using middleAmt_exact g.mid [] hmidne' hmid' hamt
  unfold matchTxnAt
  have htext : g.text ++ B = g.dt ++ (g.mid ++ (g.amtText ++ B)) := by
    simp [RawSeg.text, List.append_assoc]
  rw [htext, parseDate_exact hdt]
  simp only [hmida]
  rfl

/-- On a well-formed blob the regex scan yields exactly one match per
segment, in left-to-right order, each with that segment's captures. -/
theorem txnScan_blob : ∀ (gs : List RawSeg), (∀ g ∈ gs, g.ok = true) →
    txnScan (blob gs) = gs.map RawSeg.cap := by
  intro gs
  induction gs with
  | nil => intro h; exact txnScan_nil
  | cons g gs' ih =>
    intro h
    have hg : g.ok = true := h g (by simp)
    have h' : ∀ x ∈ gs', x.ok = true := fun x hx => h x (by simp [hx])
    have hb : blob (g :: gs') = g.text ++ blob gs' := by
      simp [blob]
    rw [hb, txnScan_some (matchTxnAt_seg hg (blob gs') (lookaheadOk_blob h')),
      ih h']
    simp

/-!
## Building Transactions from the captures

This models the body of the `while` loop in `extractTransactions`: the
capital-letter split of the middle run into merchant and category, the
synthetic `TXN-<n>` ids, and the `flagged` derivation.
-/

/-- ASCII upper-case letter test (the regex class `[A-Z]`). -/
def isUpperA (c : Char) : Bool := 'A' ≤ c && c ≤ 'Z'

/-- ASCII lower-case letter test (the regex class `[a-z]`). -/
def isLowerA (c : Char) : Bool := 'a' ≤ c && c ≤ 'z'

/-- Helper for `splitCaps`: `cur` is the reversed current chunk. -/
def splitCapsAux (cur : List Char) : List Char → List (List Char)
  | [] => [cur.reverse]
  | c :: rest =>
    if isUpperA c then cur.reverse :: splitCapsAux [c] rest
    else splitCapsAux (c :: cur) rest

/-- JavaScript `split(/(?=[A-Z])/)`: break before every capital letter
except at position zero (a zero-width match at the scan start is skipped). -/
def splitCaps : List Char → List (List Char)
  | [] => [[]]
  | c :: rest => splitCapsAux [c] rest

/-- Strip the currency symbol and thousands separators, modelling
`amount.replace(/[$,]/g, '')`. -/
def stripAmt (a : List Char) : List Char :=
  a.filter (fun c => !(c = '$' || c = ','))

/-- One hundred times the numeric value of a stripped amount string of the
shape `<digits>.<dd>` — the exact value `parseFloat` compares against the
10000 threshold (in cents, so the threshold becomes 1000000). -/
def amtScaled (a : List Char) : Nat :=
  digitsVal ((stripAmt a).takeWhile (fun c => !(c = '.'))) * 100 +
  digitsVal (((stripAmt a).dropWhile (fun c => !(c = '.'))).drop 1)

/-- The `Transaction` entity of `src/types/index.ts` (fields the extractor
always sets). -/
structure Transaction where
  id : String
  date : String
  amount : String
  counterparty : String
  type : String
  status : String
  flagged : Bool
deriving Repr, DecidableEq

/-- The merchant part of the middle run: everything but the last
capital-letter chunk, falling back to the whole trimmed run when that join
trims to nothing (`parts.slice(0, -1).join('').trim() || mac.trim()`). -/
def txnMerchant (mid : List Char) : List Char :=
  let tmac := trimL mid
  let merchant0 := trimL (splitCaps tmac).dropLast.flatten
  if merchant0 = [] then tmac else merchant0

/-- The category part of the middle run: the last capital-letter chunk,
falling back to `Transfer` (`parts[parts.length - 1]?.trim() || 'Transfer'`). -/
def txnCategory (mid : List Char) : List Char :=
  let category0 := trimL ((splitCaps (trimL mid)).getLast?.getD [])
  if category0 = [] then "Transfer".data else category0

/-- The body of the match loop of `extractTransactions`: build one
`Transaction` from the regex captures, with 1-based sequence number `idx`. -/
def mkTransaction (idx : Nat) (cap : TxnCap) : Transaction :=
  { id := String.mk ("TXN-".data ++ natDigs idx)
    date := String.mk cap.date
    amount := String.mk cap.amt
    counterparty := String.mk
      (if txnMerchant cap.mid = [] then "Unknown".data else txnMerchant cap.mid)
    type := String.mk (txnCategory cap.mid)
    status := "Completed"
    flagged := containsL "crypto".data (lowerL (txnMerchant cap.mid))
      || decide (amtScaled cap.amt > 1000000) }

/-- The `while` loop of `extractTransactions`: each parsed match is pushed
with id `TXN-<current length + 1>`, so the `i`-th match (0-based) gets
sequence number `i + 1`. -/
def buildTxns (i : Nat) : List TxnCap → List Transaction
  | [] => []
  | cap :: rest => mkTransaction (i + 1) cap :: buildTxns (i + 1) rest

/-- `extractTransactions` restricted to its pure core: parse the container
text of the "Recent Transactions" card into the list of transactions. -/
def parseTransactions (s : List Char) : List Transaction :=
  buildTxns 0 (txnScan s)

theorem buildTxns_length (i : Nat) (l : List TxnCap) :
    (buildTxns i l).length = l.length := by
  induction l generalizing i with
  | nil => rfl
  | cons cap rest ih => simp [buildTxns, ih]

theorem mem_buildTxns {t : Transaction} :
    ∀ {l : List TxnCap} {i : Nat}, t ∈ buildTxns i l →
      ∃ n cap, cap ∈ l ∧ t = mkTransaction n cap := by
  intro l
  induction l with
  | nil => intro i h; cases h
  | cons cap rest ih =>
    intro i h
    rcases List.mem_cons.mp h with h1 | h2
    · exact ⟨i + 1, cap, by simp, h1⟩
    · obtain ⟨n, cap', hmem, ht⟩ := ih h2
      exact ⟨n, cap', by simp [hmem], ht⟩

theorem buildTxns_map_date (i : Nat) (l : List TxnCap) :
    (buildTxns i l).map Transaction.date = l.map (fun c => String.mk c.date) := by
  induction l generalizing i with
  | nil => rfl
  | cons cap rest ih => simp [buildTxns, mkTransaction, ih]

theorem buildTxns_map_amount (i : Nat) (l : List TxnCap) :
    (buildTxns i l).map Transaction.amount = l.map (fun c => String.mk c.amt) := by
  induction l generalizing i with
  | nil => rfl
  | cons cap rest ih => simp [buildTxns, mkTransaction, ih]

theorem buildTxns_map_id (i : Nat) (l : List TxnCap) :
    (buildTxns i l).map Transaction.id
      = (List.range' (i + 1) l.length).map
          (fun n => String.mk ("TXN-".data ++ natDigs n)) := by
  induction l generalizing i with
  | nil => rfl
  | cons cap rest ih => simp [buildTxns, mkTransaction, List.range'_succ, ih]

theorem flagged_counterparty_helper (m amt : List Char) :
    ((containsL "crypto".data (lowerL m)
        || decide (amtScaled amt > 1000000)) = true ↔
      (containsL "crypto".data
          (lowerL (if m = [] then "Unknown".data else m)) = true ∨
        amtScaled amt > 1000000)) := by
  by_cases hm : m = []
  · subst hm
    have h1 : containsL "crypto".data (lowerL ([] : List Char)) = false := by decide
    have h2 : containsL "crypto".data (lowerL "Unknown".data) = false := by decide
    simp [h1, h2]
  · simp [hm]

theorem mkTransaction_flagged_iff (n : Nat) (cap : TxnCap) :
    ((mkTransaction n cap).flagged = true ↔
      (containsL "crypto".data (lowerL (mkTransaction n cap).counterparty.data) = true ∨
        amtScaled (mkTransaction n cap).amount.data > 1000000)) := by
  have h := flagged_counterparty_helper (txnMerchant cap.mid) cap.amt
  simpa [mkTransaction] using h

/-- C1: for every transaction emitted by the transaction parser, `flagged`
is true iff the counterparty text case-insensitively contains the high-risk
keyword "crypto", or the numeric amount obtained by stripping the currency
symbol and thousands separators exceeds 10000 (stated in cents:
`amtScaled > 1000000`); in particular above-threshold amounts are always
flagged and "crypto" counterparties are always flagged. -/
theorem C1_flagged_iff (s : List Char) (t : Transaction)
    (ht : t ∈ parseTransactions s) :
    (t.flagged = true ↔
      (containsL "crypto".data (lowerL t.counterparty.data) = true ∨
        amtScaled t.amount.data > 1000000)) := by
  obtain ⟨n, cap, -, rfl⟩ := mem_buildTxns ht
  exact mkTransaction_flagged_iff n cap

/-- Witness for C1 at a concrete container text: the parser emits a
transaction with a "Crypto" counterparty and a small amount, and it is
flagged, as the theorem instance demands. -/
theorem C1_flagged_iff_witness :
    (mkTransaction 1 ⟨"2024-01-15".data, "Crypto PayTransfer".data,
        "$12.00".data⟩ ∈
      parseTransactions "2024-01-15Crypto PayTransfer$12.00".data) ∧
    ((mkTransaction 1 ⟨"2024-01-15".data, "Crypto PayTransfer".data,
        "$12.00".data⟩).flagged = true ↔
      (containsL "crypto".data
          (lowerL (mkTransaction 1 ⟨"2024-01-15".data,
            "Crypto PayTransfer".data, "$12.00".data⟩).counterparty.data) = true ∨
        amtScaled (mkTransaction 1 ⟨"2024-01-15".data,
          "Crypto PayTransfer".data, "$12.00".data⟩).amount.data > 1000000)) :=
  ⟨by decide,
    C1_flagged_iff "2024-01-15Crypto PayTransfer$12.00".data _ (by decide)⟩

theorem txnId_inj :
    Function.Injective (fun n : Nat => String.mk ("TXN-".data ++ natDigs n)) := by
  intro a b hab
  have h2 : "TXN-".data ++ natDigs a = "TXN-".data ++ natDigs b :=
    congrArg String.data hab
  exact natDigs_inj (List.append_cancel_left h2)

/-- C2: on a well-formed `(date)(text)(amount)*N` blob with no residual
text, the parser returns exactly N transactions, in left-to-right order of
occurrence (the i-th transaction carries the i-th segment's date and
amount), with sequential 1-based ids `TXN-1 .. TXN-N`, which are unique
within the record. -/
theorem C2_parseTransactions_blob (gs : List RawSeg)
    (h : ∀ g ∈ gs, g.ok = true) :
    (parseTransactions (blob gs)).length = gs.length ∧
    (parseTransactions (blob gs)).map Transaction.date
      = gs.map (fun g => String.mk g.dt) ∧
    (parseTransactions (blob gs)).map Transaction.amount
      = gs.map (fun g => String.mk g.amtText) ∧
    (parseTransactions (blob gs)).map Transaction.id
      = (List.range' 1 gs.length).map
          (fun n => String.mk ("TXN-".data ++ natDigs n)) ∧
    ((parseTransactions (blob gs)).map Transaction.id).Nodup := by
  unfold parseTransactions
  rw [txnScan_blob gs h]
  refine ⟨?_, ?_, ?_, ?_, ?_⟩
  · rw [buildTxns_length]
    simp
  · rw [buildTxns_map_date]
    simp [RawSeg.cap]
  · rw [buildTxns_map_amount]
    simp [RawSeg.cap]
  · rw [buildTxns_map_id]
    simp
  · rw [buildTxns_map_id]
    exact (List.nodup_range' _ _).map txnId_inj

/-- A concrete well-formed two-segment blob for the C2 witness. -/
def segA : RawSeg :=
  ⟨"2024-01-15".data, "Best BuyElectronics".data, "4500".data, '0', '0'⟩

/-- Second segment of the C2 witness blob. -/
def segB : RawSeg :=
  ⟨"2024-02-20".data, "Crypto ExchangeTransfer".data, "12,000".data, '5', '0'⟩

/-!
## Investigation parsing

`ComplianceOSService.extractInvestigations` scans the "Past Investigations"
card text with the case-insensitive global regex

  `(INV-\d{4}-\d{3})(\d{4}-\d{2}-\d{2})(closed|open)` (flags `gi`)

and, for each match, reconstructs a title from the text before the match by
splitting with `/(?=[A-Z][a-z])|alerts|checks/`, taking the last fragment
and stripping boilerplate prefixes.  For a regex without the `u` flag,
case-insensitive matching identifies an input character with an ASCII
pattern letter exactly when it is that letter's lower- or upper-case form
(`ciMatch`), and never identifies a non-ASCII character with an ASCII one.
-/

/-- Case-insensitive single-character match of JavaScript regexes for ASCII
pattern characters. -/
def ciMatch (p c : Char) : Bool := c = lcChar p || c = ucChar p

theorem ciMatch_elim {p c : Char} (h : ciMatch p c = true) :
    c = lcChar p ∨ c = ucChar p := by
  simpa [ciMatch] using h

/-- Case-insensitive literal matcher; returns the matched text verbatim and
the rest of the input. -/
def parseCI : List Char → List Char → Option (List Char × List Char)
  | [], s => some ([], s)
  | _ :: _, [] => none
  | p :: ps, c :: s =>
    if ciMatch p c then
      match parseCI ps s with
      | some (v, r) => some (c :: v, r)
      | none => none
    else none

/-- Exactly `n` decimal digits (the regex `\d{n}`). -/
def takeDigits : Nat → List Char → Option (List Char × List Char)
  | 0, s => some ([], s)
  | _ + 1, [] => none
  | n + 1, c :: s =>
    if c.isDigit then
      match takeDigits n s with
      | some (v, r) => some (c :: v, r)
      | none => none
    else none

/-- A literal `-`. -/
def parseDash : List Char → Option (List Char × List Char)
  | [] => none
  | c :: s => if c = '-' then some ([c], s) else none

/-- Sequencing of two sub-pattern matchers, concatenating their matched
text. -/
def pseq (f g : List Char → Option (List Char × List Char)) (s : List Char) :
    Option (List Char × List Char) :=
  match f s with
  | none => none
  | some (v, r) =>
    match g r with
    | none => none
    | some (w, r2) => some (v ++ w, r2)

/-- Group 1 of the investigation regex: `INV-\d{4}-\d{3}`. -/
def invIdP : List Char → Option (List Char × List Char) :=
  pseq (parseCI "INV-".data) (pseq (takeDigits 4) (pseq parseDash (takeDigits 3)))

/-- Group 2 of the investigation regex: `\d{4}-\d{2}-\d{2}`. -/
def invDateP : List Char → Option (List Char × List Char) :=
  pseq (takeDigits 4)
    (pseq parseDash (pseq (takeDigits 2) (pseq parseDash (takeDigits 2))))

/-- Group 3 of the investigation regex: `closed|open`, case-insensitive,
alternatives tried left to right. -/
def invStatusP (s : List Char) : Option (List Char × List Char) :=
  match parseCI "closed".data s with
  | some (v, r) => some (v, r)
  | none => parseCI "open".data s

/-- Try the whole investigation regex anchored at the front of the input;
return the three capture groups and the suffix after the match. -/
def matchInvAt (s : List Char) :
    Option ((List Char × List Char × List Char) × List Char) :=
  match invIdP s with
  | none => none
  | some (idv, r1) =>
    match invDateP r1 with
    | none => none
    | some (dv, r2) =>
      match invStatusP r2 with
      | none => none
      | some (sv, r3) => some ((idv, dv, sv), r3)

theorem parseCI_length :
    ∀ {pat s v r : List Char}, parseCI pat s = some (v, r) →
      r.length + pat.length = s.length := by
  intro pat
  induction pat with
  | nil =>
    intro s v r h
    injection h with h'
    cases h'
    simp
  | cons p ps ih =>
    intro s v r h
    cases s with
    | nil => cases h
    | cons c s' =>
      show _ = s'.length + 1
      unfold parseCI at h
      split at h
      · rcases hp : parseCI ps s' with _ | ⟨v', r'⟩ <;> rw [hp] at h
        · cases h
        · injection h with h'
          cases h'
          have := ih hp
          simp at this ⊢
          omega
      · cases h

theorem takeDigits_length :
    ∀ {n : Nat} {s v r : List Char}, takeDigits n s = some (v, r) →
      r.length + n = s.length := by
  intro n
  induction n with
  | zero =>
    intro s v r h
    injection h with h'
    cases h'
    simp
  | succ m ih =>
    intro s v r h
    cases s with
    | nil => cases h
    | cons c s' =>
      unfold takeDigits at h
      split at h
      · rcases hp : takeDigits m s' with _ | ⟨v', r'⟩ <;> rw [hp] at h
        · cases h
        · injection h with h'
          cases h'
          have := ih hp
          simp
          omega
      · cases h

theorem parseDash_length {s v r : List Char} (h : parseDash s = some (v, r)) :
    r.length + 1 = s.length := by
  cases s with
  | nil => cases h
  | cons c s' =>
    rw [show parseDash (c :: s') = (if c = '-' then some ([c], s') else none)
      from rfl] at h
    by_cases hc : c = '-'
    · rw [if_pos hc] at h
      injection h with h'
      cases h'
      simp
    · rw [if_neg hc] at h
      cases h

theorem pseq_le {f g : List Char → Option (List Char × List Char)}
    (hf : ∀ {s v r}, f s = some (v, r) → r.length ≤ s.length)
    (hg : ∀ {s v r}, g s = some (v, r) → r.length ≤ s.length)
    {s v r : List Char} (h : pseq f g s = some (v, r)) :
    r.length ≤ s.length := by
  unfold pseq at h
  split at h
  · cases h
  · rename_i v1 r1 hf1
    rcases hg1 : g r1 with _ | ⟨w, r2⟩ <;> rw [hg1] at h
    · cases h
    · injection h with h'
      cases h'
      exact le_trans (hg hg1) (hf hf1)

theorem invIdP_le {s v r : List Char} (h : invIdP s = some (v, r)) :
    r.length ≤ s.length := by
  unfold invIdP at h
  exact pseq_le (fun hx => by have := parseCI_length hx; omega)
    (pseq_le (fun hx => by have := takeDigits_length hx; omega)
      (pseq_le (fun hx => by have := parseDash_length hx; omega)
        (fun hx => by have := takeDigits_length hx; omega))) h

theorem invDateP_le {s v r : List Char} (h : invDateP s = some (v, r)) :
    r.length ≤ s.length := by
  unfold invDateP at h
  exact pseq_le (fun hx => by have := takeDigits_length hx; omega)
    (pseq_le (fun hx => by have := parseDash_length hx; omega)
      (pseq_le (fun hx => by have := takeDigits_length hx; omega)
        (pseq_le (fun hx => by have := parseDash_length hx; omega)
          (fun hx => by have := takeDigits_length hx; omega)))) h

theorem invStatusP_lt {s v r : List Char} (h : invStatusP s = some (v, r)) :
    r.length < s.length := by
  unfold invStatusP at h
  split at h
  · rename_i v' r' hcl
    injection h with h'
    cases h'
    have := parseCI_length hcl
    simp at this
    omega
  · have := parseCI_length h
    simp at this
    omega

theorem matchInvAt_length {s : List Char}
    {cap : List Char × List Char × List Char} {r : List Char}
    (h : matchInvAt s = some (cap, r)) : r.length < s.length := by
  unfold matchInvAt at h
  split at h
  · cases h
  · rename_i idv r1 h1
    split at h
    · cases h
    · rename_i dv r2 h2
      split at h
      · cases h
      · rename_i sv r3 h3
        injection h with h'
        cases h'
        have e1 := invIdP_le h1
        have e2 := invDateP_le h2
        have e3 := invStatusP_lt h3
        omega

/-- Fuelled global `exec` loop of the investigation regex, tracking the
absolute position `pos` of the scan so that each emitted match carries its
`match.index`. -/
def invScanF : Nat → Nat → List Char →
    List (Nat × (List Char × List Char × List Char))
  | 0, _, _ => []
  | fuel + 1, pos, s =>
    match matchInvAt s with
    | some (cap, rest) =>
      (pos, cap) :: invScanF fuel (pos + (s.length - rest.length)) rest
    | none =>
      match s with
      | [] => []
      | _ :: t => invScanF fuel (pos + 1) t

/-- The global `exec` loop of the investigation regex. -/
def invScan (pos : Nat) (s : List Char) :
    List (Nat × (List Char × List Char × List Char)) :=
  invScanF (s.length + 1) pos s

theorem invScanF_succ (fuel pos : Nat) (s : List Char) :
    invScanF (fuel + 1) pos s =
      (match matchInvAt s with
      | some (cap, rest) =>
        (pos, cap) :: invScanF fuel (pos + (s.length - rest.length)) rest
      | none =>
        match s with
        | [] => []
        | _ :: t => invScanF fuel (pos + 1) t) := rfl

theorem invScanF_mem :
    ∀ (fuel pos : Nat) (s : List Char)
      (pc : Nat × (List Char × List Char × List Char)),
      pc ∈ invScanF fuel pos s →
      ∃ s2 rest, matchInvAt s2 = some (pc.2, rest) := by
  intro fuel
  induction fuel with
  | zero => intro pos s pc h; cases h
  | succ f ih =>
    intro pos s pc h
    rw [invScanF_succ] at h
    cases hm : matchInvAt s with
    | some capRest =>
      obtain ⟨cap, rest⟩ := capRest
      rw [hm] at h
      rcases List.mem_cons.mp h with h1 | h2
      · exact ⟨s, rest, by rw [hm, h1]⟩
      · exact ih _ rest pc h2
    | none =>
      rw [hm] at h
      cases s with
      | nil => cases h
      | cons c t => exact ih _ t pc h

/-- Two-character lookahead `(?=[A-Z][a-z])` of the title-splitting regex. -/
def lookAZaz : List Char → Bool
  | a :: b :: _ => isUpperA a && isLowerA b
  | _ => false

/-- Fuelled JavaScript `split(/(?=[A-Z][a-z])|alerts|checks/)`: `acc` is the
reversed current chunk; a zero-width match at the current chunk start is
skipped, a zero-width match elsewhere ends the chunk, and the literal
separators `alerts`/`checks` are consumed. -/
def splitTitleF : Nat → List Char → List Char → List (List Char)
  | 0, acc, _ => [acc.reverse]
  | fuel + 1, acc, s =>
    match s with
    | [] => [acc.reverse]
    | c :: rest =>
      if lookAZaz (c :: rest) then
        if acc.isEmpty then splitTitleF fuel [c] rest
        else acc.reverse :: splitTitleF fuel [c] rest
      else if isPreL "alerts".data (c :: rest) then
        acc.reverse :: splitTitleF fuel [] ((c :: rest).drop 6)
      else if isPreL "checks".data (c :: rest) then
        acc.reverse :: splitTitleF fuel [] ((c :: rest).drop 6)
      else splitTitleF fuel (c :: acc) rest

/-- JavaScript `split(/(?=[A-Z][a-z])|alerts|checks/)` on a whole string. -/
def splitTitle (s : List Char) : List (List Char) :=
  splitTitleF (s.length + 1) [] s

/-- Strip one leading boilerplate phrase, modelling
`replace(/^(Past Investigations|History of compliance|checks and|alerts)/gi, '')`
(with `^` and no `m` flag, at most the one match at index zero is removed;
alternatives have distinct first letters, so order does not matter). -/
def stripBoiler (t : List Char) : List Char :=
  match parseCI "Past Investigations".data t with
  | some (_, r) => r
  | none =>
    match parseCI "History of compliance".data t with
    | some (_, r) => r
    | none =>
      match parseCI "checks and".data t with
      | some (_, r) => r
      | none =>
        match parseCI "alerts".data t with
        | some (_, r) => r
        | none => t

/-- `status.charAt(0).toUpperCase() + status.slice(1).toLowerCase()`. -/
def normStatus : List Char → List Char
  | [] => []
  | c :: rest => ucChar c :: rest.map lcChar

/-- The `Investigation` entity of `src/types/index.ts` (fields the
extractor always sets). -/
structure Investigation where
  id : String
  date : String
  status : String
  investigator : String
  summary : String
deriving Repr, DecidableEq

/-- The body of the match loop of `extractInvestigations`: build one
`Investigation` from the capture groups and the match position. -/
def mkInvestigation (full : List Char) (pos : Nat)
    (cap : List Char × List Char × List Char) : Investigation :=
  let cands := splitTitle (full.take pos)
  let title0 := trimL (cands.getLast?.getD [])
  let title := if title0 = [] then "Investigation".data else title0
  let clean0 := trimL (stripBoiler title)
  let summary := if clean0 = [] then "Compliance Investigation".data else clean0
  { id := String.mk cap.1
    date := String.mk cap.2.1
    status := String.mk (normStatus cap.2.2)
    investigator := "Compliance Officer"
    summary := String.mk summary }

/-- `extractInvestigations` restricted to its pure core: parse the container
text of the "Past Investigations" card into the list of investigations. -/
def parseInvestigations (s : List Char) : List Investigation :=
  (invScan 0 s).map (fun pc => mkInvestigation s pc.1 pc.2)

/-- Witness for C2: the theorem applied to the concrete two-segment blob. -/
theorem C2_parseTransactions_blob_witness :
    (parseTransactions (blob [segA, segB])).length = [segA, segB].length ∧
    (parseTransactions (blob [segA, segB])).map Transaction.date
      = [segA, segB].map (fun g => String.mk g.dt) ∧
    (parseTransactions (blob [segA, segB])).map Transaction.amount
      = [segA, segB].map (fun g => String.mk g.amtText) ∧
    (parseTransactions (blob [segA, segB])).map Transaction.id
      = (List.range' 1 [segA, segB].length).map
          (fun n => String.mk ("TXN-".data ++ natDigs n)) ∧
    ((parseTransactions (blob [segA, segB])).map Transaction.id).Nodup :=
  C2_parseTransactions_blob [segA, segB] (by decide)

theorem parseCI_forall2 :
    ∀ {pat s v r : List Char}, parseCI pat s = some (v, r) →
      List.Forall₂ (fun p c => ciMatch p c = true) pat v := by
  intro pat
  induction pat with
  | nil =>
    intro s v r h
    injection h with h'
    cases h'
    exact List.Forall₂.nil
  | cons p ps ih =>
    intro s v r h
    cases s with
    | nil => cases h
    | cons c s' =>
      unfold parseCI at h
      split at h
      · rename_i hci
        rcases hp : parseCI ps s' with _ | ⟨v', r'⟩ <;> rw [hp] at h
        · cases h
        · injection h with h'
          cases h'
          exact List.Forall₂.cons hci (ih hp)
      · cases h

theorem normStatus_of_closed {s v r : List Char}
    (h : parseCI "closed".data s = some (v, r)) :
    normStatus v = "Closed".data := by
  have hf := parseCI_forall2 h
  rcases hf with _ | ⟨h1, _ | ⟨h2, _ | ⟨h3, _ | ⟨h4, _ | ⟨h5, _ | ⟨h6, hnil⟩⟩⟩⟩⟩⟩
  cases hnil
  rcases ciMatch_elim h1 with rfl | rfl <;>
    rcases ciMatch_elim h2 with rfl | rfl <;>
    rcases ciMatch_elim h3 with rfl | rfl <;>
    rcases ciMatch_elim h4 with rfl | rfl <;>
    rcases ciMatch_elim h5 with rfl | rfl <;>
    rcases ciMatch_elim h6 with rfl | rfl <;>
    decide

theorem normStatus_of_open {s v r : List Char}
    (h : parseCI "open".data s = some (v, r)) :
    normStatus v = "Open".data := by
  have hf := parseCI_forall2 h
  rcases hf with _ | ⟨h1, _ | ⟨h2, _ | ⟨h3, _ | ⟨h4, hnil⟩⟩⟩⟩
  cases hnil
  rcases ciMatch_elim h1 with rfl | rfl <;>
    rcases ciMatch_elim h2 with rfl | rfl <;>
    rcases ciMatch_elim h3 with rfl | rfl <;>
    rcases ciMatch_elim h4 with rfl | rfl <;>
    decide

theorem invStatusP_status {s v r : List Char}
    (h : invStatusP s = some (v, r)) :
    normStatus v = "Closed".data ∨ normStatus v = "Open".data := by
  unfold invStatusP at h
  split at h
  · rename_i v' r' hcl
    injection h with h'
    cases h'
    exact Or.inl (normStatus_of_closed hcl)
  · exact Or.inr (normStatus_of_open h)

theorem matchInvAt_status {s : List Char}
    {cap : List Char × List Char × List Char} {r : List Char}
    (h : matchInvAt s = some (cap, r)) :
    normStatus cap.2.2 = "Closed".data ∨ normStatus cap.2.2 = "Open".data := by
  unfold matchInvAt at h
  split at h
  · cases h
  · split at h
    · cases h
    · split at h
      · cases h
      · rename_i h3
        injection h with h'
        cases h'
        exact invStatusP_status h3

theorem parseInvestigations_status (s : List Char) (inv : Investigation)
    (h : inv ∈ parseInvestigations s) :
    inv.status = "Closed" ∨ inv.status = "Open" := by
  unfold parseInvestigations invScan at h
  obtain ⟨pc, hmem, rfl⟩ := List.mem_map.mp h
  obtain ⟨s2, rest, hm⟩ := invScanF_mem _ _ _ _ hmem
  rcases matchInvAt_status hm with h1 | h1
  · left
    show String.mk (normStatus pc.2.2.2) = "Closed"
    rw [h1]
  · right
    show String.mk (normStatus pc.2.2.2) = "Open"
    rw [h1]

/-- C6: on the container text
`"Unusual transaction volumeINV-2023-0012023-11-15closed"` the
investigation parser returns exactly one Investigation with id
`INV-2023-001` extracted verbatim, date `2023-11-15`, and status `Closed`;
and for every match on any input, the status is case-normalized (first
letter capitalized, rest lowercased) from a case-insensitive
`open`/`closed` token, so it is always `Closed` or `Open`. -/
theorem C6_investigation_sample :
    parseInvestigations
        "Unusual transaction volumeINV-2023-0012023-11-15closed".data
      = [{ id := "INV-2023-001", date := "2023-11-15", status := "Closed",
           investigator := "Compliance Officer",
           summary := "Unusual transaction volume" }] ∧
    (∀ (s : List Char) (inv : Investigation), inv ∈ parseInvestigations s →
      inv.status = "Closed" ∨ inv.status = "Open") := by
  constructor
  · decide
  · exact parseInvestigations_status

/-- Witness for C6: the universally quantified part of the theorem applied
to the one investigation parsed from the sample blob. -/
theorem C6_investigation_sample_witness :
    ({ id := "INV-2023-001", date := "2023-11-15", status := "Closed",
       investigator := "Compliance Officer",
       summary := "Unusual transaction volume" } : Investigation) ∈
      parseInvestigations
        "Unusual transaction volumeINV-2023-0012023-11-15closed".data ∧
    (({ id := "INV-2023-001", date := "2023-11-15", status := "Closed",
        investigator := "Compliance Officer",
        summary := "Unusual transaction volume" } : Investigation).status
          = "Closed" ∨
      ({ id := "INV-2023-001", date := "2023-11-15", status := "Closed",
         investigator := "Compliance Officer",
         summary := "Unusual transaction volume" } : Investigation).status
          = "Open") := by
  refine ⟨by decide, C6_investigation_sample.2
    "Unusual transaction volumeINV-2023-0012023-11-15closed".data
    { id := "INV-2023-001", date := "2023-11-15", status := "Closed",
      investigator := "Compliance Officer",
      summary := "Unusual transaction volume" } (by decide)⟩

/-!
## Field locator, risk normalization, and the customer-record assembler

`extractFieldValue` probes, for each candidate label in priority order, four
selector patterns in a fixed order; for the first visible element of each
pattern it reads the next sibling's text and then the parent's next
sibling's text, returning the trimmed first truthy (non-empty, non-null)
value and skipping everything afterwards; if everything fails it returns
the empty string.  The page is modelled as read-only oracles from selector
pattern strings to visibility and text contents (`none` models a `null`
return of `textContent`).
-/

/-- Read-only model of the rendered page: everything the extraction code
can observe. -/
structure Page where
  nameText : Option String
  visible : String → Bool
  sibText : String → Option String
  parentSibText : String → Option String
  txnHeadingVisible : Bool
  txnContainerText : Option String
  invHeadingVisible : Bool
  invContainerText : Option String

/-- The four selector patterns tried for one label, in source order. -/
def patternsFor (label : String) : List String :=
  ["text=\"" ++ label ++ "\"",
   "text=/.*" ++ label ++ ".*/i",
   "[data-testid*=\"" ++ String.mk (lowerL label.data) ++ "\"]",
   "label:has-text(\"" ++ label ++ "\")"]

/-- Second fallback position: the parent's next sibling. -/
def tryParent (pg : Page) (pat : String) : Option String :=
  match pg.parentSibText pat with
  | some w => if w = "" then none else some (String.mk (trimL w.data))
  | none => none

/-- One (pattern) probe: if the element is visible, read the next sibling,
then the parent's next sibling; a truthy value is returned trimmed. -/
def tryPattern (pg : Page) (pat : String) : Option String :=
  if pg.visible pat then
    match pg.sibText pat with
    | some v => if v = "" then tryParent pg pat else some (String.mk (trimL v.data))
    | none => tryParent pg pat
  else none

/-- `extractFieldValue`: first successful probe over labels and patterns,
empty string when everything is exhausted. -/
def extractFieldValue (pg : Page) (labels : List String) : String :=
  match labels.findSome? (fun lab => (patternsFor lab).findSome? (tryPattern pg)) with
  | some v => v
  | none => ""

/-- The raw candidate values of one pattern, in the probed position order
(next sibling before parent's next sibling), gated by visibility. -/
def comboPat (pg : Page) (pat : String) : List String :=
  if pg.visible pat then
    (match pg.sibText pat with | some v => [v] | none => []) ++
    (match pg.parentSibText pat with | some w => [w] | none => [])
  else []

/-- All raw candidate values of every (label, pattern, position)
combination, in the fixed probe order. -/
def comboRaw (pg : Page) (labels : List String) : List String :=
  labels.flatMap (fun lab => (patternsFor lab).flatMap (comboPat pg))

theorem tryPattern_eq_comboPat (pg : Page) (pat : String) :
    tryPattern pg pat =
      (match (comboPat pg pat).find? (fun v => !(v = "")) with
       | some v => some (String.mk (trimL v.data))
       | none => none) := by
  unfold tryPattern comboPat tryParent
  by_cases hv : pg.visible pat
  · rw [if_pos hv, if_pos hv]
    rcases hs : pg.sibText pat with - | v <;>
      rcases hp : pg.parentSibText pat with - | w
    · rfl
    · by_cases hw : w = "" <;> simp [hw, List.find?]
    · by_cases hv0 : v = "" <;> simp [hv0, List.find?]
    · by_cases hv0 : v = "" <;> by_cases hw : w = "" <;>
        simp [hv0, hw, List.find?]
  · rw [if_neg hv, if_neg hv]
    rfl

theorem findSome_bind_find {α : Type} (f : α → Option String)
    (g : α → List String)
    (hfg : ∀ a, f a =
      (match (g a).find? (fun v => !(v = "")) with
       | some v => some (String.mk (trimL v.data))
       | none => none)) :
    ∀ l : List α, l.findSome? f =
      (match (l.flatMap g).find? (fun v => !(v = "")) with
       | some v => some (String.mk (trimL v.data))
       | none => none) := by
  intro l
  induction l with
  | nil => rfl
  | cons a t ih =>
    rw [List.findSome?_cons, List.flatMap_cons, List.find?_append, hfg a]
    rcases hfa : (g a).find? (fun v => !(v = "")) with - | v
    · simpa using ih
    · simp

/-- C8: the field locator returns the trim of the first non-empty value
delivered by any (label, strategy, position) combination, the combinations
being enumerated labels-first, then the four selector patterns, then next
sibling before parent's next sibling, gated by visibility; later
combinations are skipped, and if every combination is exhausted it returns
the empty string (it is a total function, so it cannot throw). -/
theorem C8_extractFieldValue_first_hit (pg : Page) (labels : List String) :
    extractFieldValue pg labels =
      (match (comboRaw pg labels).find? (fun v => !(v = "")) with
       | some v => String.mk (trimL v.data)
       | none => "") := by
  unfold extractFieldValue comboRaw
  rw [findSome_bind_find (fun lab => (patternsFor lab).findSome? (tryPattern pg))
    (fun lab => (patternsFor lab).flatMap (comboPat pg))
    (fun lab => findSome_bind_find (tryPattern pg) (comboPat pg)
      (tryPattern_eq_comboPat pg) (patternsFor lab)) labels]
  rcases (labels.flatMap fun lab => (patternsFor lab).flatMap (comboPat pg)).find?
      (fun v => !(v = "")) with - | v <;> rfl

/-- Case-insensitive keyword containment used by the risk normalizer. -/
def kw (k r : String) : Bool := containsL k.data (lowerL r.data)

/-- `extractRiskLevel`'s normalization of the located risk text. -/
def riskNorm (r : String) : String :=
  if r = "" then "Unknown"
  else if kw "high" r || kw "critical" r then "High"
  else if kw "medium" r || kw "moderate" r then "Medium"
  else if kw "low" r || kw "minimal" r then "Low"
  else String.mk (trimL r.data)

/-- C5: risk normalization classifies the located text by case-insensitive
keyword containment in priority order (critical/high, then
moderate/medium, then minimal/low); with no keyword the raw trimmed text
passes through unnormalized, and with no located text at all the result
defaults to "Unknown". -/
theorem C5_risk_normalization (r : String) :
    (r = "" → riskNorm r = "Unknown") ∧
    (r ≠ "" → (kw "critical" r || kw "high" r) = true →
      riskNorm r = "High") ∧
    (r ≠ "" → (kw "critical" r || kw "high" r) = false →
      (kw "moderate" r || kw "medium" r) = true → riskNorm r = "Medium") ∧
    (r ≠ "" → (kw "critical" r || kw "high" r) = false →
      (kw "moderate" r || kw "medium" r) = false →
      (kw "minimal" r || kw "low" r) = true → riskNorm r = "Low") ∧
    (r ≠ "" → (kw "critical" r || kw "high" r) = false →
      (kw "moderate" r || kw "medium" r) = false →
      (kw "minimal" r || kw "low" r) = false →
      riskNorm r = String.mk (trimL r.data)) := by
  refine ⟨?_, ?_, ?_, ?_, ?_⟩
  · intro hr
    simp [riskNorm, hr]
  · intro hr h1
    rw [Bool.or_comm] at h1
    simp [riskNorm, hr, h1]
  · intro hr h1 h2
    rw [Bool.or_comm] at h1 h2
    simp [riskNorm, hr, h1, h2]
  · intro hr h1 h2 h3
    rw [Bool.or_comm] at h1 h2 h3
    simp [riskNorm, hr, h1, h2, h3]
  · intro hr h1 h2 h3
    rw [Bool.or_comm] at h1 h2 h3
    simp [riskNorm, hr, h1, h2, h3]

/-- Witness for C5: the three example inputs of the specification. -/
theorem C5_risk_normalization_witness :
    riskNorm "" = "Unknown" ∧ riskNorm "N/A" = "N/A" ∧
    riskNorm "Current Levelmedium RiskLast assessment 2023-06-01" = "Medium" := by
  refine ⟨(C5_risk_normalization "").1 rfl, ?_, ?_⟩
  · have h := (C5_risk_normalization "N/A").2.2.2.2
      (by decide) (by decide) (by decide) (by decide)
    rw [h]
    decide
  · exact (C5_risk_normalization
      "Current Levelmedium RiskLast assessment 2023-06-01").2.2.1
      (by decide) (by decide) (by decide)

/-- The `PersonalInfo` entity of `src/types/index.ts` (`none` models an
absent optional field). -/
structure PersonalInfo where
  name : String
  dateOfBirth : String
  address : String
  customerId : Option String
  email : Option String
  phone : Option String
  profession : Option String
deriving Repr, DecidableEq

/-- The `CustomerData` entity of `src/types/index.ts`. -/
structure CustomerData where
  personalInfo : PersonalInfo
  riskLevel : String
  transactions : List Transaction
  investigations : List Investigation
deriving Repr, DecidableEq

/-- `extractPersonalInfo`: the name from the heading locator, the other
fields through the field locator with their per-field label lists. -/
def extractPersonalInfo (pg : Page) : PersonalInfo :=
  { name := match pg.nameText with | some v => v | none => ""
    dateOfBirth := extractFieldValue pg ["Date of Birth", "DOB", "Birth Date", "dob"]
    address := extractFieldValue pg ["Address", "Location", "Residence"]
    customerId := some (extractFieldValue pg ["Customer ID", "ID", "Account Number"])
    email := some (extractFieldValue pg ["Email", "E-mail"])
    phone := some (extractFieldValue pg ["Phone", "Telephone", "Mobile"])
    profession := none }

/-- `extractRiskLevel`: locate the risk text, then normalize it. -/
def extractRiskLevel (pg : Page) : String :=
  riskNorm (extractFieldValue pg ["Risk Level", "Risk", "Risk Score", "Risk Rating"])

/-- `extractTransactions`: skipped entirely (empty result) when the
"Recent Transactions" heading is not visible. -/
def extractTransactionsP (pg : Page) : List Transaction :=
  if pg.txnHeadingVisible then parseTransactions (pg.txnContainerText.getD "").data
  else []

/-- `extractInvestigations`: skipped entirely (empty result) when the
"Past Investigations" heading is not visible. -/
def extractInvestigationsP (pg : Page) : List Investigation :=
  if pg.invHeadingVisible then parseInvestigations (pg.invContainerText.getD "").data
  else []

/-- `extractCustomerData`: assemble the full customer record from the page. -/
def extractCustomerData (pg : Page) : CustomerData :=
  { personalInfo := extractPersonalInfo pg
    riskLevel := extractRiskLevel pg
    transactions := extractTransactionsP pg
    investigations := extractInvestigationsP pg }

/-- C9: assembling twice against an unchanged page context yields
structurally identical Customer Records — assembly is a deterministic
function of the page content, field for field (personal fields, risk
level, transactions with their synthetic ids and flagged values, and
investigations). -/
theorem C9_assemble_idempotent (pg : Page) :
    extractCustomerData pg = extractCustomerData pg ∧
    (extractCustomerData pg).personalInfo = (extractCustomerData pg).personalInfo ∧
    (extractCustomerData pg).riskLevel = (extractCustomerData pg).riskLevel ∧
    (extractCustomerData pg).transactions = (extractCustomerData pg).transactions ∧
    (extractCustomerData pg).investigations = (extractCustomerData pg).investigations :=
  ⟨rfl, rfl, rfl, rfl, rfl⟩

/-!
## Orchestrator and state machine

`Orchestrator.investigate` runs the browser phase (`BrowserAgent.execute`),
and either short-circuits to `generateNotFoundReport` (browser failure or
no data) or runs the research phase.  The research collaborator and the
report-saving step are external; they are modelled as function parameters,
and `investigate` additionally returns how many times the research
collaborator was invoked.  `duration` (wall-clock) and the screenshots are
environment effects with no bearing on the claims and are omitted;
`generatedAt` (`new Date().toISOString()`) is modelled as the explicit
parameter `now`.
-/

/-- The `transactionsSummary` record of `InternalDataSection`. -/
structure TransactionsSummary where
  total : Nat
  flagged : Nat
  totalAmount : String
deriving Repr, DecidableEq

/-- The `investigationHistory` record of `InternalDataSection`. -/
structure InvestigationHistory where
  total : Nat
  recent : List Investigation
deriving Repr, DecidableEq

/-- The `InternalDataSection` entity of `src/types/index.ts`. -/
structure InternalDataSection where
  customerProfile : PersonalInfo
  riskLevel : String
  transactionsSummary : TransactionsSummary
  investigationHistory : InvestigationHistory
deriving Repr, DecidableEq

/-- The `ExternalResearchSection` entity of `src/types/index.ts`. -/
structure ExternalResearchSection where
  backgroundCheck : String
  counterpartyAnalysis : String
  publicRecords : String
  newsAndMedia : String
  additionalFindings : String
deriving Repr, DecidableEq

/-- The `RiskAssessmentSection` entity of `src/types/index.ts`. -/
structure RiskAssessmentSection where
  overallRiskScore : String
  riskFactors : List String
  mitigatingFactors : List String
  complianceFlags : List String
deriving Repr, DecidableEq

/-- The `ComplianceReport` entity of `src/types/index.ts`. -/
structure ComplianceReport where
  executiveSummary : String
  internalDataOverview : InternalDataSection
  externalResearchFindings : ExternalResearchSection
  riskAssessment : RiskAssessmentSection
  recommendedActions : List String
  generatedAt : String
  customerName : String
deriving Repr, DecidableEq

/-- JavaScript `a || b` on an optional string (`undefined` and the empty
string are both falsy). -/
def jsOr (o : Option String) (d : String) : String :=
  match o with
  | some s => if s = "" then d else s
  | none => d

/-- `Orchestrator.generateNotFoundReport`, with the generation instant as
the explicit parameter `now`. -/
def generateNotFoundReport (customerName error now : String) : ComplianceReport :=
  { executiveSummary := String.mk ("Investigation for ".data ++ customerName.data
      ++ " could not be completed. ".data ++ error.data)
    internalDataOverview :=
      { customerProfile :=
          { name := customerName, dateOfBirth := "N/A", address := "N/A",
            customerId := none, email := none, phone := none, profession := none }
        riskLevel := "Unknown"
        transactionsSummary := { total := 0, flagged := 0, totalAmount := "$0.00" }
        investigationHistory := { total := 0, recent := [] } }
    externalResearchFindings :=
      { backgroundCheck := "Customer not found in ComplianceOS database."
        counterpartyAnalysis := "N/A"
        publicRecords := "N/A"
        newsAndMedia := "N/A"
        additionalFindings := "No data available for analysis." }
    riskAssessment :=
      { overallRiskScore := "Unknown"
        riskFactors := ["Customer not found in system"]
        mitigatingFactors := []
        complianceFlags := [] }
    recommendedActions :=
      ["Verify customer name spelling and try again",
       "Check if customer exists in ComplianceOS database",
       "Contact system administrator if customer should exist"]
    generatedAt := now
    customerName := customerName }

/-- The `BrowserAgentResult` entity of `src/types/index.ts`. -/
structure BrowserAgentResult where
  success : Bool
  data : Option CustomerData
  error : Option String
deriving Repr, DecidableEq

/-- The `ResearchAgentResult` entity of `src/types/index.ts`. -/
structure ResearchAgentResult where
  success : Bool
  report : Option ComplianceReport
  error : Option String
deriving Repr, DecidableEq

/-- The `OrchestrationResult` entity of `src/types/index.ts` (without the
wall-clock `duration`). -/
structure OrchestrationResult where
  success : Bool
  report : Option ComplianceReport
  reportPath : Option String
  error : Option String
deriving Repr, DecidableEq

/-- `BrowserAgent.execute`: a search miss yields a failure result with the
quoted not-found message; otherwise extraction either yields the record or
an error caught into a failure result. -/
def browserExecute (customerName : String) (found : Bool)
    (extraction : Except String CustomerData) : BrowserAgentResult :=
  if found then
    match extraction with
    | Except.ok d => { success := true, data := some d, error := none }
    | Except.error e => { success := false, data := none, error := some e }
  else
    { success := false, data := none,
      error := some (String.mk ("Customer \"".data ++ customerName.data
        ++ "\" not found in ComplianceOS".data)) }

/-- `Orchestrator.investigate` given the browser phase's result, returning
the orchestration result together with the number of calls made to the
research collaborator. -/
def investigate (research : CustomerData → ResearchAgentResult)
    (savePath : ComplianceReport → String) (customerName : String)
    (browserResult : BrowserAgentResult) (now : String) :
    OrchestrationResult × Nat :=
  match browserResult.success, browserResult.data with
  | true, some d =>
    let rr := research d
    match rr.success, rr.report with
    | true, some rep =>
      ({ success := true, report := some rep,
         reportPath := some (savePath rep), error := none }, 1)
    | _, _ =>
      ({ success := false, report := none, reportPath := none,
         error := some (jsOr rr.error "Failed to generate compliance report") }, 1)
  | _, _ =>
    let rep := generateNotFoundReport customerName
      (jsOr browserResult.error "Customer not found") now
    ({ success := true, report := some rep,
       reportPath := some (savePath rep), error := none }, 0)

/-- C3: when the customer search reports found = false, the orchestrator
produces a terminal report with exactly zero transactions, zero
investigations and riskLevel "Unknown", and the research collaborator is
invoked zero times on this path. -/
theorem C3_not_found_short_circuit
    (research : CustomerData → ResearchAgentResult)
    (savePath : ComplianceReport → String) (name now : String)
    (extraction : Except String CustomerData) :
    (investigate research savePath name
        (browserExecute name false extraction) now).2 = 0 ∧
    ∃ rep, (investigate research savePath name
        (browserExecute name false extraction) now).1.report = some rep ∧
      rep.internalDataOverview.transactionsSummary.total = 0 ∧
      rep.internalDataOverview.investigationHistory.total = 0 ∧
      rep.internalDataOverview.investigationHistory.recent = [] ∧
      rep.internalDataOverview.riskLevel = "Unknown" := by
  exact ⟨rfl, ⟨generateNotFoundReport name
    (jsOr (browserExecute name false extraction).error "Customer not found") now,
    rfl, rfl, rfl, rfl, rfl⟩⟩

/-- C4: the not-found report is synthesized deterministically (only the
generation timestamp depends on anything but the name and reason), with
placeholder personal fields "N/A" and no optional fields, riskLevel
"Unknown", the fixed remediation-oriented recommended actions, and an
executive summary containing the supplied reason verbatim as a substring. -/
theorem C4_not_found_report_shape (name reason now now2 : String) :
    (generateNotFoundReport name reason now).internalDataOverview.customerProfile.dateOfBirth
      = "N/A" ∧
    (generateNotFoundReport name reason now).internalDataOverview.customerProfile.address
      = "N/A" ∧
    (generateNotFoundReport name reason now).internalDataOverview.customerProfile.customerId
      = none ∧
    (generateNotFoundReport name reason now).internalDataOverview.customerProfile.email
      = none ∧
    (generateNotFoundReport name reason now).internalDataOverview.customerProfile.phone
      = none ∧
    (generateNotFoundReport name reason now).internalDataOverview.riskLevel = "Unknown" ∧
    (generateNotFoundReport name reason now).riskAssessment.overallRiskScore = "Unknown" ∧
    (generateNotFoundReport name reason now).recommendedActions
      = ["Verify customer name spelling and try again",
         "Check if customer exists in ComplianceOS database",
         "Contact system administrator if customer should exist"] ∧
    containsL reason.data
      (generateNotFoundReport name reason now).executiveSummary.data = true ∧
    generateNotFoundReport name reason now2 =
      { generateNotFoundReport name reason now with generatedAt := now2 } := by
  refine ⟨rfl, rfl, rfl, rfl, rfl, rfl, rfl, rfl, ?_, rfl⟩
  show containsL reason.data ("Investigation for ".data ++ name.data
    ++ " could not be completed. ".data ++ reason.data) = true
  have h := containsL_suffix reason.data
    ("Investigation for ".data ++ name.data ++ " could not be completed. ".data)
  simpa [List.append_assoc] using h

/-- The extracted record's name, for stating the C7 claim. -/
def extractedName (e : Except String CustomerData) : String :=
  match e with
  | Except.ok d => d.personalInfo.name
  | Except.error _ => ""

/-- Whether extraction succeeded. -/
def extOk (e : Except String CustomerData) : Bool :=
  match e with
  | Except.ok _ => true
  | Except.error _ => false

/-- A customer record whose name is empty, as `extractCustomerData`
produces when the heading locator reads nothing. -/
def emptyCustomer : CustomerData :=
  { personalInfo :=
      { name := "", dateOfBirth := "", address := "",
        customerId := some "", email := some "", phone := some "",
        profession := none }
    riskLevel := "Unknown"
    transactions := []
    investigations := [] }

/-- A stub research collaborator used only to instantiate counterexamples
and witnesses. -/
def sampleResearch : CustomerData → ResearchAgentResult :=
  fun _ => { success := false, report := none, error := none }

/-- A stub report-path function used only to instantiate counterexamples
and witnesses. -/
def samplePath : ComplianceReport → String := fun _ => "reports/report.md"

/-- C7 counterexample: the claim that the workflow moves to FOUND
(forwarding the record to the research phase) exactly when the search
succeeds AND the assembled record has a non-empty name is false on the
code: with a successful search and a record whose name is empty, the
record is still forwarded to research (the research collaborator is
called once, not zero times, and no terminal not-found report is
produced). -/
theorem C7_counterexample :
    ¬ (∀ (research : CustomerData → ResearchAgentResult)
        (savePath : ComplianceReport → String) (name now : String)
        (found : Bool) (extraction : Except String CustomerData),
        ((investigate research savePath name
            (browserExecute name found extraction) now).2 = 1 ↔
          (found = true ∧ extractedName extraction ≠ ""))) := by
  intro hclaim
  have h := hclaim sampleResearch samplePath "Jane Doe" "t" true
    (Except.ok emptyCustomer)
  have h2 := h.mp rfl
  exact h2.2 rfl

/-- C7 amended: the workflow transitions SEARCHING to FOUND (forwarding
the record to the research phase) exactly when the customer-search step
reports a successful match and extraction succeeds; the assembled record's
name is not consulted.  In every other case it transitions to NOT_FOUND
and the research collaborator is not called. -/
theorem C7_found_transition (research : CustomerData → ResearchAgentResult)
    (savePath : ComplianceReport → String) (name now : String)
    (found : Bool) (extraction : Except String CustomerData) :
    (investigate research savePath name
        (browserExecute name found extraction) now).2
      = (if found && extOk extraction then 1 else 0) := by
  cases found <;> rcases extraction with e | d
  · rfl
  · rfl
  · rfl
  · show (investigate research savePath name
      (browserExecute name true (Except.ok d)) now).2 = 1
    rcases hr : research d with ⟨rs, rrep, re⟩
    cases rs <;> rcases rrep with - | rep <;>
      simp [investigate, browserExecute, hr]

/-- C10: whenever the browser phase reports failure or returns no data
(the customer-not-found case included), `investigate` returns success =
true carrying the generated not-found report and its saved path; success
= false occurs exactly when the browser phase succeeded with data and the
research phase failed — "customer not found" is a successful
investigation at the orchestrator's public interface. -/
theorem C10_not_found_is_success
    (research : CustomerData → ResearchAgentResult)
    (savePath : ComplianceReport → String) (name now : String)
    (br : BrowserAgentResult) :
    ((br.success = false ∨ br.data = none) →
      (investigate research savePath name br now).1.success = true ∧
      (investigate research savePath name br now).1.report
        = some (generateNotFoundReport name (jsOr br.error "Customer not found") now) ∧
      (investigate research savePath name br now).1.reportPath
        = some (savePath (generateNotFoundReport name
            (jsOr br.error "Customer not found") now))) ∧
    ((investigate research savePath name br now).1.success = false ↔
      (br.success = true ∧ ∃ d, br.data = some d ∧
        ((research d).success = false ∨ (research d).report = none))) := by
  rcases br with ⟨su, da, er⟩
  cases su <;> rcases da with - | d
  · exact ⟨fun _ => ⟨rfl, rfl, rfl⟩, by simp [investigate]⟩
  · exact ⟨fun _ => ⟨rfl, rfl, rfl⟩, by simp [investigate]⟩
  · exact ⟨fun _ => ⟨rfl, rfl, rfl⟩, by simp [investigate]⟩
  · constructor
    · intro h
      rcases h with h | h <;> simp at h
    · rcases hr : research d with ⟨rs, rrep, re⟩
      cases rs <;> rcases rrep with - | rep <;>
        simp [investigate, hr]

/-- Witness for C10: the implication discharged at a concrete failed
browser result. -/
theorem C10_not_found_is_success_witness :
    (investigate sampleResearch samplePath "Jane Doe"
        { success := false, data := none, error := none } "t").1.success = true ∧
    (investigate sampleResearch samplePath "Jane Doe"
        { success := false, data := none, error := none } "t").1.report
      = some (generateNotFoundReport "Jane Doe"
          (jsOr ({ success := false, data := none, error := none }
            : BrowserAgentResult).error "Customer not found") "t") ∧
    (investigate sampleResearch samplePath "Jane Doe"
        { success := false, data := none, error := none } "t").1.reportPath
      = some (samplePath (generateNotFoundReport "Jane Doe"
          (jsOr ({ success := false, data := none, error := none }
            : BrowserAgentResult).error "Customer not found") "t")) :=
  (C10_not_found_is_success sampleResearch samplePath "Jane Doe" "t"
    { success := false, data := none, error := none }).1 (Or.inl rfl)

end ComplianceOS
